import Mathlib

/-
Verification of the framework-shell manager (app/framework_shells.py).

The Python module is shallowly embedded as follows.

- ShellRecord is embedded field by field.  Python floats recording wall-clock
  times (time.time()) are modelled as Nat ticks supplied by the OS oracle;
  only their propagation matters to the claims, never float arithmetic.
- The on-disk metadata store (one meta.json per shell id, written with an
  atomic rename) is modelled as a list of records; save_record is the keyed
  upsert this file layout realizes and load_record is lookup by id.
- Every OS interaction (os.kill probes, waitpid, Popen, path resolution,
  psutil, the external ps query, log-file contents, time, fresh ids) is an
  oracle field of OSEnv, fixed for the duration of one manager operation.
- Python truthiness tests on Optional values are embedded explicitly:
  pidTruthy for the `if record.pid` test, strOptTruthy for the
  `if self.run_id` test, and pyOrExit for `record.exit_code or ...`
  (which treats a stored 0 as absent).
- Fallible operations return their result through Except together with the
  resulting store, so that "raises and persists nothing" is expressible.
-/

/-- Serializable metadata describing a framework shell (class ShellRecord). -/
structure ShellRecord where
  id : String
  command : List String
  label : Option String
  cwd : String
  env_overrides : List (String × String)
  pid : Option Nat
  status : String
  created_at : Nat
  updated_at : Nat
  autostart : Bool
  stdout_log : String
  stderr_log : String
  exit_code : Option Int
  run_id : Option String
  launcher_pid : Option Nat
  adopted : Bool
  uses_pty : Bool
deriving DecidableEq

/-- Constructor-time state of FrameworkShellManager that the modelled
operations read: run identity, launcher pid, shell cap, start time and the
logs directory prefix. -/
structure FrameworkShellManager where
  run_id : Option String
  launcher_pid : Nat
  max_shells : Nat
  started_at : Nat
  logs_dir : String

/-- Errors raised by manager operations (ValueError, RuntimeError, KeyError
and OS-level launch failures in the source). -/
inductive FsError where
  | invalidArgument
  | capacityExceeded
  | launchFailed
  | notFound
deriving DecidableEq

deriving instance DecidableEq for Except

/-- Oracle for every OS interaction one manager operation performs.  Each
field corresponds to one call site in the source; the oracle is fixed for
the duration of the operation being modelled.

- alive p: outcome of the os.kill(p, 0) probe in is_pid_alive (true also
  covers PermissionError and EPERM, which the source treats as alive).
- killOk p: os.kill(p, sig) did not raise ProcessLookupError.  (The managed
  shells are same-user children, so PermissionError is not modelled.)
- waitResult p: outcome of os.waitpid(p, WNOHANG) as digested by
  collect_exit_code: some code for a reaped exit, none for still-running,
  ChildProcessError, OSError or a non-exit non-signal status.
- spawnResult: outcome of subprocess.Popen: some pid on success, none when
  the OS raises (missing binary, permission denied, openpty failure).
- resolve s: Path resolution of the expanded user path s as a pure function.
- home: the sandbox root HOME_DIR as a string.
- now: time.time() as a tick count.
- environRunId: the TE_RUN_ID environment variable.
- freshId: the fs_<time>_<uuid> identifier minted by create_record.
- hasPsutil: whether the optional psutil import succeeded.
- psutilCpu, psutilMem, psutilThreads p: the three psutil calls made under
  proc.oneshot(); none means that call raised NoSuchProcess or AccessDenied
  (aborting the later calls, which the embedding models sequentially).
- psShell p: the per-shell ps query for cpu, mem, rss and nlwp: none when
  the subprocess fails or yields fewer than four fields, otherwise
  (cpu, rss-kilobytes, threads).
- psAgg p: the aggregate ps query for cpu, mem and rss: none on failure,
  otherwise (cpu, rss-kilobytes).
- fileContent path: raw bytes of a log file, none when it does not exist. -/
structure OSEnv where
  alive : Nat → Bool
  killOk : Nat → Bool
  waitResult : Nat → Option Int
  spawnResult : Option Nat
  resolve : String → String
  home : String
  now : Nat
  environRunId : Option String
  freshId : String
  hasPsutil : Bool
  psutilCpu : Nat → Option Int
  psutilMem : Nat → Option Nat
  psutilThreads : Nat → Option Nat
  psShell : Nat → Option (Int × Nat × Nat)
  psAgg : Nat → Option (Int × Nat)
  fileContent : String → Option (List Nat)

/-- The persisted record store: the meta subdirectories with their
meta.json documents. -/
abbrev Store : Type := List ShellRecord

/-- Python truthiness of an Optional[int] pid: None and 0 are falsy. -/
def pidTruthy : Option Nat → Bool
  | none => false
  | some p => p != 0

/-- Python truthiness of an Optional[str]: None and the empty string are falsy. -/
def strOptTruthy : Option String → Bool
  | none => false
  | some s => s != ""

/-- Python `a or b` for an Optional[int] a: a stored 0 falls through to b. -/
def pyOrExit : Option Int → Option Int → Option Int
  | none, b => b
  | some v, b => if v = 0 then b else some v

/-- FrameworkShellManager._load_record: look the record up by shell id. -/
def load_record (store : Store) (sid : String) : Option ShellRecord :=
  List.find? (fun r => r.id == sid) store

/-- FrameworkShellManager._save_record: write the meta.json of the record's
id.  On the file system this overwrites the document of that id if present
and creates it otherwise, hence a keyed upsert. -/
def save_record (store : Store) (r : ShellRecord) : Store :=
  if List.any store (fun x => x.id == r.id) then
    List.map (fun x => if x.id = r.id then r else x) store
  else store ++ [r]

/-- FrameworkShellManager._is_pid_alive. -/
def is_pid_alive (env : OSEnv) (pid : Option Nat) : Bool :=
  match pid with
  | none => false
  | some p => if p = 0 then false else env.alive p

/-- FrameworkShellManager._collect_exit_code. -/
def collect_exit_code (env : OSEnv) (pid : Option Nat) : Option Int :=
  if pidTruthy pid then env.waitResult (pid.getD 0) else none

/-- FrameworkShellManager._mark_exited. -/
def mark_exited (env : OSEnv) (record : ShellRecord) (ec : Option Int) : ShellRecord :=
  { record with pid := none, status := "exited", exit_code := ec, updated_at := env.now }

/-- FrameworkShellManager.terminate_shell.  Returns the resulting store plus
the returned record or the raised error.  The graceful SIGTERM wait loop and
the SIGKILL escalation only touch the OS, never the record, so after a
successful kill the record outcome is collect-then-mark-exited for both the
forced and the graceful path. -/
def terminate_shell (env : OSEnv) (store : Store) (sid : String) (force : Bool) :
    Store × Except FsError ShellRecord :=
  match load_record store sid with
  | none => (store, Except.error FsError.notFound)
  | some record =>
    if !(pidTruthy record.pid) || !(is_pid_alive env record.pid) then
      let ec := pyOrExit record.exit_code (collect_exit_code env record.pid)
      let r := mark_exited env record ec
      (save_record store r, Except.ok r)
    else if !(env.killOk (record.pid.getD 0)) then
      let ec := pyOrExit record.exit_code (collect_exit_code env record.pid)
      let r := mark_exited env record ec
      (save_record store r, Except.ok r)
    else
      let ec := collect_exit_code env record.pid
      let r := mark_exited env record ec
      (save_record store r, Except.ok r)

/-- Python `a or b` for Optional[str] values. -/
def pyOrStr (a b : Option String) : Option String :=
  if strOptTruthy a then a else b

/-- dict.setdefault on the insertion-ordered pair list. -/
def setdefault (l : List (String × String)) (k v : String) : List (String × String) :=
  if List.any l (fun kv => kv.1 == k) then l else l ++ [(k, v)]

/-- FrameworkShellManager._normalize_command: an empty argument vector
raises ValueError. -/
def normalize_command (command : List String) : Except FsError (List String) :=
  if command = [] then Except.error FsError.invalidArgument else Except.ok command

/-- FrameworkShellManager._resolve_cwd: expand and resolve the requested
working directory (the oracle's resolve) and require it to stay under the
home sandbox root, else raise ValueError.  A None or empty cwd falls back
to the home directory itself. -/
def resolve_cwd (env : OSEnv) (cwd : Option String) : Except FsError String :=
  let raw := match cwd with
    | none => env.home
    | some s => if s = "" then env.home else s
  let target := env.resolve raw
  if List.isPrefixOf env.home.data target.data then Except.ok target
  else Except.error FsError.invalidArgument

/-- FrameworkShellManager._create_record: validate the command and cwd and
build the fresh pending record; nothing is persisted here. -/
def create_record (mgr : FrameworkShellManager) (env : OSEnv) (command : List String)
    (cwd : Option String) (envOv : List (String × String)) (label : Option String)
    (autostart : Bool) (uses_pty : Bool) : Except FsError ShellRecord :=
  let shell_id := env.freshId
  match normalize_command command with
  | Except.error e => Except.error e
  | Except.ok command_list =>
    match resolve_cwd env cwd with
    | Except.error e => Except.error e
    | Except.ok cwd_path =>
      let run_id := pyOrStr mgr.run_id env.environRunId
      let overrides := if strOptTruthy run_id then
          setdefault envOv "TE_RUN_ID" (run_id.getD "") else envOv
      let overrides := setdefault overrides "TE_SPAWNED_BY" "framework_shell_manager"
      Except.ok {
        id := shell_id
        command := command_list
        label := label
        cwd := cwd_path
        env_overrides := overrides
        pid := none
        status := "pending"
        created_at := env.now
        updated_at := env.now
        autostart := autostart
        stdout_log := mgr.logs_dir ++ "/" ++ shell_id ++ ".stdout.log"
        stderr_log := mgr.logs_dir ++ "/" ++ shell_id ++ ".stderr.log"
        exit_code := none
        run_id := run_id
        launcher_pid := some mgr.launcher_pid
        adopted := false
        uses_pty := uses_pty }

/-- FrameworkShellManager._launch: headless spawn.  When Popen raises, the
error propagates before any save, leaving the store untouched; on success
the record is persisted with the new pid and status "running". -/
def launch (env : OSEnv) (store : Store) (record : ShellRecord) :
    Store × Except FsError ShellRecord :=
  let record := { record with uses_pty := false }
  match env.spawnResult with
  | none => (store, Except.error FsError.launchFailed)
  | some pid =>
    let r := { record with pid := some pid, status := "running",
                           exit_code := none, updated_at := env.now }
    (save_record store r, Except.ok r)

/-- FrameworkShellManager._launch_pty: PTY spawn.  Openpty or Popen failures
propagate before any save (the finally block only closes the slave fd); on
success the record is persisted with the new pid and status "running". -/
def launch_pty (env : OSEnv) (store : Store) (record : ShellRecord) :
    Store × Except FsError ShellRecord :=
  let record := { record with uses_pty := true }
  match env.spawnResult with
  | none => (store, Except.error FsError.launchFailed)
  | some pid =>
    let r := { record with pid := some pid, status := "running",
                           exit_code := none, updated_at := env.now }
    (save_record store r, Except.ok r)

/-- Per-record body of FrameworkShellManager.sweep: a record with a truthy
pid that is no longer alive is reaped and marked exited. -/
def sweep_record (env : OSEnv) (record : ShellRecord) : ShellRecord :=
  if pidTruthy record.pid && !(is_pid_alive env record.pid) then
    mark_exited env record (pyOrExit record.exit_code (collect_exit_code env record.pid))
  else record

/-- FrameworkShellManager.sweep over the whole store. -/
def sweep (env : OSEnv) (store : Store) : Store :=
  List.map (sweep_record env) store

/-- FrameworkShellManager._active_shell_count. -/
def active_shell_count (env : OSEnv) (store : Store) : Nat :=
  List.length (List.filter (fun r => is_pid_alive env r.pid) store)

/-- FrameworkShellManager.spawn_shell: sweep, enforce the cap (skipped
entirely when max_shells is falsy, that is 0), create the record, launch
headless. -/
def spawn_shell (mgr : FrameworkShellManager) (env : OSEnv) (store : Store)
    (command : List String) (cwd : Option String) (envOv : List (String × String))
    (label : Option String) (autostart : Bool) : Store × Except FsError ShellRecord :=
  let store := sweep env store
  if mgr.max_shells ≠ 0 ∧ active_shell_count env store ≥ mgr.max_shells then
    (store, Except.error FsError.capacityExceeded)
  else
    match create_record mgr env command cwd envOv label autostart false with
    | Except.error e => (store, Except.error e)
    | Except.ok record => launch env store record

/-- FrameworkShellManager.spawn_shell_pty: as spawn_shell but bound to a
pseudo-terminal. -/
def spawn_shell_pty (mgr : FrameworkShellManager) (env : OSEnv) (store : Store)
    (command : List String) (cwd : Option String) (envOv : List (String × String))
    (label : Option String) (autostart : Bool) : Store × Except FsError ShellRecord :=
  let store := sweep env store
  if mgr.max_shells ≠ 0 ∧ active_shell_count env store ≥ mgr.max_shells then
    (store, Except.error FsError.capacityExceeded)
  else
    match create_record mgr env command cwd envOv label autostart true with
    | Except.error e => (store, Except.error e)
    | Except.ok record => launch_pty env store record

/-- First half of FrameworkShellManager.restart_shell, up to and including
the persist of the "pending" record.  The source loads its own copy of the
record, then terminate_shell loads and mutates a second copy, so the copy
held by restart keeps the stale pid when its pending state is persisted. -/
def restart_pending (env : OSEnv) (store : Store) (sid : String) :
    Option (Store × ShellRecord) :=
  match load_record store sid with
  | none => none
  | some record =>
    let store1 := (terminate_shell env store sid true).1
    let record := { record with created_at := env.now, updated_at := env.now,
                                exit_code := none, status := "pending" }
    some (save_record store1 record, record)

/-- FrameworkShellManager.restart_shell: force-terminate, persist the reset
pending record, then relaunch in the mode recorded in uses_pty. -/
def restart_shell (env : OSEnv) (store : Store) (sid : String) :
    Store × Except FsError ShellRecord :=
  match restart_pending env store sid with
  | none => (store, Except.error FsError.notFound)
  | some (store2, record) =>
    if record.uses_pty then launch_pty env store2 record else launch env store2 record

/-- FrameworkShellManager.remove_shell: terminate if alive, then delete the
metadata directory (and logs, which live outside the record store). -/
def remove_shell (env : OSEnv) (store : Store) (sid : String) (force : Bool) :
    Store × Except FsError Unit :=
  match load_record store sid with
  | none => (store, Except.error FsError.notFound)
  | some record =>
    let store1 := if pidTruthy record.pid && is_pid_alive env record.pid then
        (terminate_shell env store sid force).1
      else store
    (List.filter (fun r => !(r.id == sid)) store1, Except.ok ())

/-- Per-record body of FrameworkShellManager._adopt_orphaned_shells: reap
dead pids; otherwise, when a run identity is set, re-stamp a foreign or
absent run_id and a differing launcher_pid and flag the record adopted. -/
def adopt_record (mgr : FrameworkShellManager) (env : OSEnv) (record : ShellRecord) :
    ShellRecord :=
  if pidTruthy record.pid && !(is_pid_alive env record.pid) then
    mark_exited env record (pyOrExit record.exit_code (collect_exit_code env record.pid))
  else if !(strOptTruthy mgr.run_id) then record
  else
    let m1 := !(strOptTruthy record.run_id) || record.run_id != mgr.run_id
    let record1 := if m1 then { record with run_id := mgr.run_id } else record
    let m2 := record1.launcher_pid != some mgr.launcher_pid
    let record2 := if m2 then { record1 with launcher_pid := some mgr.launcher_pid } else record1
    if m1 || m2 then { record2 with adopted := true } else record2

/-- FrameworkShellManager._adopt_orphaned_shells, run once at construction. -/
def adopt_orphaned_shells (mgr : FrameworkShellManager) (env : OSEnv) (store : Store) :
    Store :=
  List.map (adopt_record mgr env) store

-- ---------------------------------------------------------------------
-- Store lemmas

theorem find?_map_overwrite (sid : String) (r' : ShellRecord) (hid : r'.id = sid)
    (l : List ShellRecord) (r0 : ShellRecord)
    (hfind : List.find? (fun r => r.id == sid) l = some r0) :
    List.find? (fun r => r.id == sid)
      (List.map (fun x => if x.id = r'.id then r' else x) l) = some r' := by
  induction l with
  | nil => simp at hfind
  | cons a as ih =>
    simp only [List.map_cons]
    by_cases ha : a.id = sid
    · have h1 : (if a.id = r'.id then r' else a) = r' := if_pos (by rw [hid]; exact ha)
      rw [h1]
      exact List.find?_cons_of_pos _ (by simp [hid])
    · have hfind' : List.find? (fun r => r.id == sid) as = some r0 := by
        rwa [List.find?_cons_of_neg _ (by simp [ha])] at hfind
      have h1 : (if a.id = r'.id then r' else a) = a := if_neg (by rw [hid]; exact ha)
      rw [h1, List.find?_cons_of_neg _ (by simp [ha])]
      exact ih hfind'

theorem load_record_id (store : Store) (sid : String) (r0 : ShellRecord)
    (hload : load_record store sid = some r0) : r0.id = sid := by
  have := List.find?_some hload
  exact eq_of_beq this

theorem load_record_mem (store : Store) (sid : String) (r0 : ShellRecord)
    (hload : load_record store sid = some r0) : r0 ∈ store :=
  List.mem_of_find?_eq_some hload

theorem load_record_save_overwrite (store : Store) (sid : String) (r0 r' : ShellRecord)
    (hload : load_record store sid = some r0) (hid : r'.id = sid) :
    load_record (save_record store r') sid = some r' := by
  have hr0 : r0 ∈ store := load_record_mem store sid r0 hload
  have hr0id : r0.id = sid := load_record_id store sid r0 hload
  have hany : List.any store (fun x => x.id == r'.id) = true := by
    rw [List.any_eq_true]
    exact ⟨r0, hr0, by simp [hr0id, hid]⟩
  unfold save_record
  rw [if_pos hany]
  exact find?_map_overwrite sid r' hid store r0 hload

theorem sweep_record_id (env : OSEnv) (r : ShellRecord) :
    (sweep_record env r).id = r.id := by
  unfold sweep_record
  by_cases h : (pidTruthy r.pid && !(is_pid_alive env r.pid)) = true
  · rw [if_pos h]; rfl
  · rw [if_neg h]

theorem sweep_record_alive (env : OSEnv) (r : ShellRecord) :
    is_pid_alive env (sweep_record env r).pid = is_pid_alive env r.pid := by
  unfold sweep_record
  by_cases h : (pidTruthy r.pid && !(is_pid_alive env r.pid)) = true
  · rw [if_pos h]
    have ha : is_pid_alive env r.pid = false := by
      have h' := h
      simp only [Bool.and_eq_true, Bool.not_eq_true'] at h'
      exact h'.2
    rw [ha]; rfl
  · rw [if_neg h]

theorem sweep_load_none (env : OSEnv) (store : Store) (sid : String)
    (h : load_record store sid = none) : load_record (sweep env store) sid = none := by
  unfold load_record at h ⊢
  unfold sweep
  rw [List.find?_eq_none] at h ⊢
  intro x hx
  obtain ⟨y, hy, rfl⟩ := List.mem_map.mp hx
  have hid := sweep_record_id env y
  intro hcon
  exact h y hy (by rw [← hid]; exact hcon)

theorem active_shell_count_sweep (env : OSEnv) (store : Store) :
    active_shell_count env (sweep env store) = active_shell_count env store := by
  unfold active_shell_count sweep
  induction store with
  | nil => rfl
  | cons a as ih =>
    simp only [List.map_cons, List.filter_cons, sweep_record_alive]
    cases h : is_pid_alive env a.pid <;> simp [ih]

-- ---------------------------------------------------------------------
-- Claim C4

/-- Concrete oracle used by witnesses: pid 7 is alive, kills succeed, waits
reap exit code 0, a spawn yields pid 9. -/
def envW : OSEnv where
  alive := fun p => p == 7
  killOk := fun _ => true
  waitResult := fun _ => some 0
  spawnResult := some 9
  resolve := fun s => s
  home := "/home/user"
  now := 100
  environRunId := none
  freshId := "fs_new"
  hasPsutil := false
  psutilCpu := fun _ => none
  psutilMem := fun _ => none
  psutilThreads := fun _ => none
  psShell := fun _ => none
  psAgg := fun _ => none
  fileContent := fun _ => none

/-- A running shell record with pid 7, used by witnesses. -/
def recRunning : ShellRecord where
  id := "s0"
  command := ["sleep", "60"]
  label := some "svc"
  cwd := "/home/user"
  env_overrides := [("TOKEN", "secret")]
  pid := some 7
  status := "running"
  created_at := 50
  updated_at := 50
  autostart := false
  stdout_log := "/logs/s0.stdout.log"
  stderr_log := "/logs/s0.stderr.log"
  exit_code := none
  run_id := some "runA"
  launcher_pid := some 1000
  adopted := false
  uses_pty := false

/-- C4: terminate with force=true on an existing id always returns a record
with status "exited" and pid cleared to null, whatever the liveness probe,
the kill outcome and the wait status say; a missing id raises NotFound. -/
theorem terminate_force_exits (env : OSEnv) (store : Store) (sid : String) :
    (∀ r, (terminate_shell env store sid true).2 = Except.ok r →
      r.status = "exited" ∧ r.pid = none) ∧
    (load_record store sid = none →
      (terminate_shell env store sid true).2 = Except.error FsError.notFound) := by
  constructor
  · intro r hr
    unfold terminate_shell at hr
    cases hload : load_record store sid with
    | none => rw [hload] at hr; exact absurd hr (by simp)
    | some rec0 =>
      rw [hload] at hr
      by_cases h1 : (!(pidTruthy rec0.pid) || !(is_pid_alive env rec0.pid)) = true
      · simp only [h1, if_pos] at hr
        cases hr
        exact ⟨rfl, rfl⟩
      · simp only [h1, if_neg, Bool.not_eq_true] at hr
        by_cases h2 : (!(env.killOk (rec0.pid.getD 0))) = true
        · simp only [h2, if_pos] at hr
          cases hr
          exact ⟨rfl, rfl⟩
        · simp only [h2, if_neg, Bool.not_eq_true] at hr
          cases hr
          exact ⟨rfl, rfl⟩
  · intro hnone
    unfold terminate_shell
    rw [hnone]

/-- Expected output of terminating recRunning with force under envW. -/
def recTerminated : ShellRecord :=
  { recRunning with pid := none, status := "exited", exit_code := some 0, updated_at := 100 }

/-- Witness for C4 at a concrete input: terminating the running record under
envW yields an exited record with null pid, and a missing id yields NotFound. -/
theorem terminate_force_exits_witness :
    recTerminated.status = "exited" ∧ recTerminated.pid = none ∧
    (terminate_shell envW ([] : Store) "missing" true).2 = Except.error FsError.notFound := by
  have h1 := (terminate_force_exits envW [recRunning] "s0").1 recTerminated (by decide)
  have h2 := (terminate_force_exits envW ([] : Store) "missing").2 (by decide)
  exact ⟨h1.1, h1.2, h2⟩

-- ---------------------------------------------------------------------
-- Claim C10

/-- C10: terminating a record whose pid is already null returns and persists
it as "exited"; a stored non-null, non-zero exit_code is preserved, while a
stored exit_code of exactly 0 is Python-falsy, so the source re-collects on
the null pid (which yields nothing) and the persisted exit_code becomes
null. -/
theorem terminate_null_pid_exit_code (env : OSEnv) (store : Store) (sid : String)
    (force : Bool) (r0 : ShellRecord)
    (hload : load_record store sid = some r0) (hpid : r0.pid = none) :
    ∀ r, (terminate_shell env store sid force).2 = Except.ok r →
      r.status = "exited" ∧ r.pid = none ∧
      (∀ c : Int, r0.exit_code = some c → c ≠ 0 → r.exit_code = some c) ∧
      (r0.exit_code = some 0 → r.exit_code = none) ∧
      load_record (terminate_shell env store sid force).1 sid = some r := by
  intro r hr
  have hfalsy : pidTruthy r0.pid = false := by rw [hpid]; rfl
  have hcollect : collect_exit_code env r0.pid = none := by
    unfold collect_exit_code; rw [hfalsy]; rfl
  have hbranch : (!(pidTruthy r0.pid) || !(is_pid_alive env r0.pid)) = true := by
    rw [hfalsy]; rfl
  have hterm : terminate_shell env store sid force =
      (save_record store (mark_exited env r0 (pyOrExit r0.exit_code none)),
        Except.ok (mark_exited env r0 (pyOrExit r0.exit_code none))) := by
    unfold terminate_shell
    rw [hload]
    simp only [hbranch, if_pos, hcollect]
  rw [hterm] at hr
  cases hr
  have hid : (mark_exited env r0 (pyOrExit r0.exit_code none)).id = sid :=
    load_record_id store sid r0 hload
  refine ⟨rfl, rfl, ?_, ?_, ?_⟩
  · intro c hc hc0
    show pyOrExit r0.exit_code none = some c
    rw [hc]
    unfold pyOrExit
    simp [hc0]
  · intro hc
    show pyOrExit r0.exit_code none = none
    rw [hc]
    rfl
  · rw [hterm]
    exact load_record_save_overwrite store sid r0 _ hload hid

/-- A record whose shell has already exited, with a nonzero stored code. -/
def recExitedNonzero : ShellRecord :=
  { recRunning with id := "s1", pid := none, status := "exited", exit_code := some 3 }

/-- A record whose shell has already exited, with stored code exactly 0. -/
def recExitedZero : ShellRecord :=
  { recRunning with id := "s2", pid := none, status := "exited", exit_code := some 0 }

/-- Witness for C10: with a stored code 3 the terminated record keeps
exit_code 3; with a stored code 0 the terminated record's exit_code is null;
both come out of (and are persisted with) status "exited". -/
theorem terminate_null_pid_exit_code_witness :
    (mark_exited envW recExitedNonzero (some 3)).status = "exited" ∧
    (mark_exited envW recExitedNonzero (some 3)).exit_code = some 3 ∧
    (mark_exited envW recExitedZero none).exit_code = none := by
  have h1 := terminate_null_pid_exit_code envW [recExitedNonzero] "s1" true
    recExitedNonzero (by decide) (by decide)
    (mark_exited envW recExitedNonzero (some 3)) (by decide)
  have h2 := terminate_null_pid_exit_code envW [recExitedZero] "s2" true
    recExitedZero (by decide) (by decide)
    (mark_exited envW recExitedZero none) (by decide)
  exact ⟨h1.1, h1.2.2.1 3 (by decide) (by decide), h2.2.2.2.1 (by decide)⟩

-- ---------------------------------------------------------------------
-- Claim C2

/-- Manager configuration used by witnesses: run id runB, launcher 2000,
cap of one shell. -/
def mgrW : FrameworkShellManager where
  run_id := some "runB"
  launcher_pid := 2000
  max_shells := 1
  started_at := 90
  logs_dir := "/logs"

/-- Oracle under which the OS refuses to spawn (missing binary or
permission denied at Popen time). -/
def envFail : OSEnv :=
  { envW with spawnResult := none }

/-- C2: whenever spawn_shell or spawn_shell_pty raises, whether from
validation (empty command, cwd escaping the sandbox) or from an OS-level
Popen failure, the persistent store it leaves behind is exactly the swept
input store: no record of the fresh id, and nothing new at all, was
persisted. -/
theorem spawn_failure_persists_nothing (mgr : FrameworkShellManager) (env : OSEnv)
    (store : Store) (command : List String) (cwd : Option String)
    (envOv : List (String × String)) (label : Option String) (autostart : Bool)
    (hfresh : load_record store env.freshId = none) :
    (∀ e, (spawn_shell mgr env store command cwd envOv label autostart).2 = Except.error e →
      (spawn_shell mgr env store command cwd envOv label autostart).1 = sweep env store ∧
      load_record (spawn_shell mgr env store command cwd envOv label autostart).1
        env.freshId = none) ∧
    (∀ e, (spawn_shell_pty mgr env store command cwd envOv label autostart).2 = Except.error e →
      (spawn_shell_pty mgr env store command cwd envOv label autostart).1 = sweep env store ∧
      load_record (spawn_shell_pty mgr env store command cwd envOv label autostart).1
        env.freshId = none) := by
  have hnone : load_record (sweep env store) env.freshId = none :=
    sweep_load_none env store env.freshId hfresh
  constructor
  · intro e he
    simp only [spawn_shell] at he ⊢
    by_cases hcap : mgr.max_shells ≠ 0 ∧
        active_shell_count env (sweep env store) ≥ mgr.max_shells
    · rw [if_pos hcap] at he ⊢
      exact ⟨rfl, hnone⟩
    · rw [if_neg hcap] at he ⊢
      cases hcr : create_record mgr env command cwd envOv label autostart false with
      | error e2 =>
        exact ⟨rfl, hnone⟩
      | ok record =>
        rw [hcr] at he
        simp only [launch] at he ⊢
        cases hsp : env.spawnResult with
        | none =>
          exact ⟨rfl, hnone⟩
        | some pid =>
          rw [hsp] at he
          exact absurd he (by simp)
  · intro e he
    simp only [spawn_shell_pty] at he ⊢
    by_cases hcap : mgr.max_shells ≠ 0 ∧
        active_shell_count env (sweep env store) ≥ mgr.max_shells
    · rw [if_pos hcap] at he ⊢
      exact ⟨rfl, hnone⟩
    · rw [if_neg hcap] at he ⊢
      cases hcr : create_record mgr env command cwd envOv label autostart true with
      | error e2 =>
        exact ⟨rfl, hnone⟩
      | ok record =>
        rw [hcr] at he
        simp only [launch_pty] at he ⊢
        cases hsp : env.spawnResult with
        | none =>
          exact ⟨rfl, hnone⟩
        | some pid =>
          rw [hsp] at he
          exact absurd he (by simp)

/-- Witness for C2 at concrete inputs: an empty command under envW and an
OS spawn refusal under envFail both leave the store exactly as swept, with
nothing persisted for the fresh id. -/
theorem spawn_failure_persists_nothing_witness :
    ((spawn_shell mgrW envW ([] : Store) [] none [] none false).1
        = sweep envW ([] : Store) ∧
      load_record (spawn_shell mgrW envW ([] : Store) [] none [] none false).1
        envW.freshId = none) ∧
    ((spawn_shell_pty mgrW envFail ([] : Store) ["true"] none [] none false).1
        = sweep envFail ([] : Store) ∧
      load_record (spawn_shell_pty mgrW envFail ([] : Store) ["true"] none [] none false).1
        envFail.freshId = none) := by
  constructor
  · exact (spawn_failure_persists_nothing mgrW envW ([] : Store) [] none [] none false
      (by decide)).1 FsError.invalidArgument (by decide)
  · exact (spawn_failure_persists_nothing mgrW envFail ([] : Store) ["true"] none [] none false
      (by decide)).2 FsError.launchFailed (by decide)

-- ---------------------------------------------------------------------
-- Claim C3

/-- C3 amended: for a configured positive maximum, spawning (headless or
PTY) while the live shell count is at or above the maximum raises
CapacityExceeded and leaves the store exactly as swept: no new record. -/
theorem spawn_capacity_exceeded (mgr : FrameworkShellManager) (env : OSEnv)
    (store : Store) (command : List String) (cwd : Option String)
    (envOv : List (String × String)) (label : Option String) (autostart : Bool)
    (hmax : mgr.max_shells ≠ 0)
    (hcount : active_shell_count env store ≥ mgr.max_shells)
    (hfresh : load_record store env.freshId = none) :
    (spawn_shell mgr env store command cwd envOv label autostart).2
        = Except.error FsError.capacityExceeded ∧
    (spawn_shell mgr env store command cwd envOv label autostart).1 = sweep env store ∧
    load_record (spawn_shell mgr env store command cwd envOv label autostart).1
      env.freshId = none ∧
    (spawn_shell_pty mgr env store command cwd envOv label autostart).2
        = Except.error FsError.capacityExceeded ∧
    (spawn_shell_pty mgr env store command cwd envOv label autostart).1 = sweep env store := by
  have hcount' : active_shell_count env (sweep env store) ≥ mgr.max_shells := by
    rw [active_shell_count_sweep]; exact hcount
  have hcap : mgr.max_shells ≠ 0 ∧
      active_shell_count env (sweep env store) ≥ mgr.max_shells := ⟨hmax, hcount'⟩
  have hnone : load_record (sweep env store) env.freshId = none :=
    sweep_load_none env store env.freshId hfresh
  simp only [spawn_shell, spawn_shell_pty]
  rw [if_pos hcap, if_pos hcap]
  exact ⟨rfl, rfl, hnone, rfl, rfl⟩

/-- Witness for C3 amended: with a cap of one shell and one live shell,
θ spawn fails with CapacityExceeded and persists nothing new. -/
theorem spawn_capacity_exceeded_witness :
    (spawn_shell mgrW envW [recRunning] ["true"] none [] none false).2
        = Except.error FsError.capacityExceeded ∧
    load_record (spawn_shell mgrW envW [recRunning] ["true"] none [] none false).1
      envW.freshId = none := by
  have h := spawn_capacity_exceeded mgrW envW [recRunning] ["true"] none [] none false
    (by decide) (by decide) (by decide)
  exact ⟨h.1, h.2.2.1⟩

/-- A manager configured with a maximum shell count of exactly 0. -/
def mgrZero : FrameworkShellManager :=
  { mgrW with max_shells := 0 }

/-- Counterexample to C3 as stated: a configured maximum of 0 is Python-falsy,
so the source skips the capacity check entirely.  With zero live shells the
live count is at the maximum (0 ≥ 0), yet the spawn succeeds and persists a
running record instead of raising CapacityExceeded. -/
theorem spawn_capacity_zero_counterexample :
    mgrZero.max_shells = 0 ∧
    active_shell_count envW ([] : Store) ≥ mgrZero.max_shells ∧
    (spawn_shell mgrZero envW ([] : Store) ["true"] none [] none false).2
        ≠ Except.error FsError.capacityExceeded ∧
    load_record (spawn_shell mgrZero envW ([] : Store) ["true"] none [] none false).1
      envW.freshId ≠ none := by
  decide

-- ---------------------------------------------------------------------
-- Claim C5

/-- C5: a successful restart of an existing shell returns a record that
keeps the old id, command, label and uses_pty, has a null exit_code and
status "running", and carries the pid newly assigned by the relaunch (which
followed the recorded mode: launch_pty when uses_pty was set, launch
otherwise, each re-imprinting the same uses_pty value). -/
theorem restart_preserves_identity (env : OSEnv) (store : Store) (sid : String)
    (r0 : ShellRecord) (hload : load_record store sid = some r0) :
    ∀ r, (restart_shell env store sid).2 = Except.ok r →
      r.id = r0.id ∧ r.command = r0.command ∧ r.label = r0.label ∧
      r.uses_pty = r0.uses_pty ∧ r.exit_code = none ∧ r.status = "running" ∧
      ∃ p, env.spawnResult = some p ∧ r.pid = some p := by
  intro r hr
  simp only [restart_shell, restart_pending, hload] at hr
  cases hsp : env.spawnResult with
  | none =>
    simp only [launch, launch_pty, hsp] at hr
    by_cases hpty : r0.uses_pty = true
    · simp only [hpty, if_pos] at hr
      exact absurd hr (by simp)
    · simp only [Bool.not_eq_true] at hpty
      simp only [hpty, Bool.false_eq_true, if_neg] at hr
      exact absurd hr (by simp)
  | some p =>
    simp only [launch, launch_pty, hsp] at hr
    by_cases hpty : r0.uses_pty = true
    · simp only [hpty, if_pos] at hr
      cases hr
      exact ⟨rfl, rfl, rfl, by simp [hpty], rfl, rfl, p, rfl, rfl⟩
    · simp only [Bool.not_eq_true] at hpty
      simp only [hpty, Bool.false_eq_true, if_neg] at hr
      cases hr
      exact ⟨rfl, rfl, rfl, by simp [hpty], rfl, rfl, p, rfl, rfl⟩

/-- Expected result of restarting recRunning under envW: same identity
fields, fresh pid 9 from the relaunch, cleared exit code. -/
def recRestarted : ShellRecord :=
  { recRunning with created_at := 100, updated_at := 100, exit_code := none,
                    status := "running", pid := some 9, uses_pty := false }

/-- Witness for C5 at a concrete input: restarting the running shell under
envW keeps id, command, label and uses_pty, clears exit_code, and assigns
the newly spawned pid 9. -/
theorem restart_preserves_identity_witness :
    recRestarted.id = recRunning.id ∧ recRestarted.command = recRunning.command ∧
    recRestarted.label = recRunning.label ∧ recRestarted.uses_pty = recRunning.uses_pty ∧
    recRestarted.exit_code = none ∧ recRestarted.status = "running" ∧
    ∃ p, envW.spawnResult = some p ∧ recRestarted.pid = some p :=
  restart_preserves_identity envW [recRunning] "s0" recRunning (by decide)
    recRestarted (by decide)

-- ---------------------------------------------------------------------
-- Claim C6

/-- C6: with a current run identity set, Manager construction re-stamps any
record with a live pid and a foreign or absent run_id to the current run_id
and launcher_pid, flags it adopted and preserves its status and pid (so a
"running" record stays "running"); any record whose pid is set but dead is
marked "exited" with the best-effort exit code; and the reconciled store is
the per-record image of the old one. -/
theorem adoption_reconciles_records (mgr : FrameworkShellManager) (env : OSEnv)
    (r : ShellRecord) (hrun : strOptTruthy mgr.run_id = true) :
    (pidTruthy r.pid = true → is_pid_alive env r.pid = true →
      (strOptTruthy r.run_id = false ∨ r.run_id ≠ mgr.run_id) →
      (adopt_record mgr env r).run_id = mgr.run_id ∧
      (adopt_record mgr env r).launcher_pid = some mgr.launcher_pid ∧
      (adopt_record mgr env r).adopted = true ∧
      (adopt_record mgr env r).status = r.status ∧
      (adopt_record mgr env r).pid = r.pid) ∧
    (pidTruthy r.pid = true → is_pid_alive env r.pid = false →
      (adopt_record mgr env r).status = "exited" ∧
      (adopt_record mgr env r).pid = none ∧
      (adopt_record mgr env r).exit_code =
        pyOrExit r.exit_code (collect_exit_code env r.pid)) ∧
    (∀ store : Store, r ∈ store →
      adopt_record mgr env r ∈ adopt_orphaned_shells mgr env store) := by
  refine ⟨?_, ?_, ?_⟩
  · intro hpid halive hforeign
    have hc1 : (pidTruthy r.pid && !(is_pid_alive env r.pid)) = false := by
      rw [hpid, halive]; rfl
    have hm1 : (!(strOptTruthy r.run_id) || r.run_id != mgr.run_id) = true := by
      rcases hforeign with h | h
      · rw [h]; rfl
      · have hne : (r.run_id != mgr.run_id) = true := bne_iff_ne.mpr h
        rw [hne, Bool.or_true]
    by_cases hm2 : (r.launcher_pid != some mgr.launcher_pid) = true
    · have hadopt : adopt_record mgr env r =
          { r with run_id := mgr.run_id, launcher_pid := some mgr.launcher_pid,
                   adopted := true } := by
        simp only [adopt_record, hc1, Bool.false_eq_true, if_false, hrun,
          Bool.not_true, hm1, if_true, Bool.true_or, hm2]
      rw [hadopt]
      exact ⟨rfl, rfl, rfl, rfl, rfl⟩
    · rw [Bool.not_eq_true] at hm2
      have hl : r.launcher_pid = some mgr.launcher_pid := bne_eq_false_iff_eq.mp hm2
      have hadopt : adopt_record mgr env r =
          { r with run_id := mgr.run_id, adopted := true } := by
        simp only [adopt_record, hc1, Bool.false_eq_true, if_false, hrun,
          Bool.not_true, hm1, if_true, Bool.true_or, hm2]
      rw [hadopt]
      exact ⟨rfl, hl, rfl, rfl, rfl⟩
  · intro hpid hdead
    have hc1 : (pidTruthy r.pid && !(is_pid_alive env r.pid)) = true := by
      rw [hpid, hdead]; rfl
    have hadopt : adopt_record mgr env r =
        mark_exited env r (pyOrExit r.exit_code (collect_exit_code env r.pid)) := by
      simp only [adopt_record, hc1, if_true]
    rw [hadopt]
    exact ⟨rfl, rfl, rfl⟩
  · intro store hmem
    exact List.mem_map_of_mem (adopt_record mgr env) hmem

/-- A persisted running record with a live pid owned by a foreign run. -/
def recForeign : ShellRecord :=
  { recRunning with id := "s3", run_id := some "runOld", launcher_pid := some 1 }

/-- A persisted running record whose pid 5 is dead under envW. -/
def recStale : ShellRecord :=
  { recRunning with id := "s4", pid := some 5, exit_code := none }

/-- Witness for C6: under envW and the runB manager, the foreign live record
is re-stamped and adopted with status preserved as "running", and the
dead-pid record is marked exited. -/
theorem adoption_reconciles_records_witness :
    (adopt_record mgrW envW recForeign).run_id = mgrW.run_id ∧
    (adopt_record mgrW envW recForeign).adopted = true ∧
    (adopt_record mgrW envW recForeign).status = recForeign.status ∧
    (adopt_record mgrW envW recStale).status = "exited" ∧
    (adopt_record mgrW envW recStale).pid = none := by
  have h1 := (adoption_reconciles_records mgrW envW recForeign (by decide)).1
    (by decide) (by decide) (Or.inr (by decide))
  have h2 := (adoption_reconciles_records mgrW envW recStale (by decide)).2.1
    (by decide) (by decide)
  exact ⟨h1.1, h1.2.2.1, h1.2.2.2.1, h2.1, h2.2.1⟩

-- ---------------------------------------------------------------------
-- Claim C1

/-- The claimed record invariant: pid is non-null iff status is "running". -/
def recordInvB (r : ShellRecord) : Bool :=
  r.pid.isSome == decide (r.status = "running")

/-- The invariant over a whole persisted store. -/
def storeInv (store : Store) : Prop :=
  ∀ r ∈ store, recordInvB r = true

instance (store : Store) : Decidable (storeInv store) :=
  inferInstanceAs (Decidable (∀ r ∈ store, recordInvB r = true))

theorem recordInvB_mark_exited (env : OSEnv) (r : ShellRecord) (ec : Option Int) :
    recordInvB (mark_exited env r ec) = true := rfl

theorem mem_save_record {s : Store} {b r' : ShellRecord} (h : r' ∈ save_record s b) :
    r' = b ∨ (r' ∈ s ∧ r'.id ≠ b.id) := by
  unfold save_record at h
  by_cases hany : List.any s (fun x => x.id == b.id) = true
  · rw [if_pos hany] at h
    obtain ⟨x, hx, hmap⟩ := List.mem_map.mp h
    by_cases hid : x.id = b.id
    · rw [if_pos hid] at hmap
      exact Or.inl hmap.symm
    · rw [if_neg hid] at hmap
      subst hmap
      exact Or.inr ⟨hx, hid⟩
  · rw [if_neg hany] at h
    rcases List.mem_append.mp h with h1 | h1
    · refine Or.inr ⟨h1, ?_⟩
      intro hcon
      apply hany
      rw [List.any_eq_true]
      exact ⟨r', h1, by simp [hcon]⟩
    · rw [List.mem_singleton] at h1
      exact Or.inl h1

theorem storeInv_save {s : Store} {b : ShellRecord} (hs : storeInv s)
    (hb : recordInvB b = true) : storeInv (save_record s b) := by
  intro r' hr'
  rcases mem_save_record hr' with rfl | ⟨hmem, h2⟩
  · exact hb
  · exact hs r' hmem

theorem storeInv_save_overwrite {s : Store} {a b : ShellRecord} (hid : a.id = b.id)
    (hs : storeInv s) (hb : recordInvB b = true) :
    storeInv (save_record (save_record s a) b) := by
  intro r' hr'
  rcases mem_save_record hr' with rfl | ⟨hmem, hne⟩
  · exact hb
  · rcases mem_save_record hmem with rfl | ⟨hmem2, h3⟩
    · exact absurd hid hne
    · exact hs r' hmem2

theorem storeInv_sweep (env : OSEnv) {s : Store} (hs : storeInv s) :
    storeInv (sweep env s) := by
  intro r' hr'
  obtain ⟨y, hy, rfl⟩ := List.mem_map.mp hr'
  unfold sweep_record
  by_cases hc : (pidTruthy y.pid && !(is_pid_alive env y.pid)) = true
  · rw [if_pos hc]
    exact recordInvB_mark_exited env y _
  · rw [if_neg hc]
    exact hs y hy

theorem storeInv_terminate (env : OSEnv) (store : Store) (sid : String) (force : Bool)
    (hs : storeInv store) : storeInv (terminate_shell env store sid force).1 := by
  unfold terminate_shell
  split
  · exact hs
  · split
    · exact storeInv_save hs (recordInvB_mark_exited env _ _)
    · split
      · exact storeInv_save hs (recordInvB_mark_exited env _ _)
      · exact storeInv_save hs (recordInvB_mark_exited env _ _)

theorem recordInvB_adopt (mgr : FrameworkShellManager) (env : OSEnv) (r : ShellRecord)
    (h : recordInvB r = true) : recordInvB (adopt_record mgr env r) = true := by
  unfold adopt_record
  by_cases h1 : (pidTruthy r.pid && !(is_pid_alive env r.pid)) = true
  · rw [if_pos h1]
    exact recordInvB_mark_exited env r _
  · rw [if_neg h1]
    by_cases h2 : (!(strOptTruthy mgr.run_id)) = true
    · rw [if_pos h2]
      exact h
    · rw [if_neg h2]
      by_cases hm1 : (!(strOptTruthy r.run_id) || r.run_id != mgr.run_id) = true
      · simp only [hm1, if_true, Bool.true_or]
        by_cases hm2 :
            (({ r with run_id := mgr.run_id } : ShellRecord).launcher_pid
              != some mgr.launcher_pid) = true
        · simp only [hm2, if_true]
          exact h
        · rw [Bool.not_eq_true] at hm2
          simp only [hm2, Bool.false_eq_true, if_false]
          exact h
      · rw [Bool.not_eq_true] at hm1
        simp only [hm1, Bool.false_eq_true, if_false, Bool.false_or]
        by_cases hm2 : (r.launcher_pid != some mgr.launcher_pid) = true
        · simp only [hm2, if_true]
          exact h
        · rw [Bool.not_eq_true] at hm2
          simp only [hm2, Bool.false_eq_true, if_false]
          exact h

theorem storeInv_launch (env : OSEnv) (store : Store) (record : ShellRecord)
    (hs : storeInv store) : storeInv (launch env store record).1 := by
  unfold launch
  split
  · exact hs
  · exact storeInv_save hs rfl

theorem storeInv_launch_pty (env : OSEnv) (store : Store) (record : ShellRecord)
    (hs : storeInv store) : storeInv (launch_pty env store record).1 := by
  unfold launch_pty
  split
  · exact hs
  · exact storeInv_save hs rfl

theorem storeInv_filter (p : ShellRecord → Bool) {s : Store} (hs : storeInv s) :
    storeInv (List.filter p s) :=
  fun r hr => hs r (List.mem_of_mem_filter hr)

theorem storeInv_adopt (mgr : FrameworkShellManager) (env : OSEnv) {store : Store}
    (hs : storeInv store) : storeInv (adopt_orphaned_shells mgr env store) := by
  intro r' hr'
  obtain ⟨y, hy, rfl⟩ := List.mem_map.mp hr'
  exact recordInvB_adopt mgr env y (hs y hy)

theorem storeInv_remove (env : OSEnv) (store : Store) (sid : String) (force : Bool)
    (hs : storeInv store) : storeInv (remove_shell env store sid force).1 := by
  unfold remove_shell
  split
  · exact hs
  · refine storeInv_filter _ ?_
    split
    · exact storeInv_terminate env store sid force hs
    · exact hs

theorem restart_shell_eq_none (env : OSEnv) (store : Store) (sid : String)
    (h : load_record store sid = none) :
    restart_shell env store sid = (store, Except.error FsError.notFound) := by
  unfold restart_shell restart_pending
  rw [h]

/-- The reset applied by restart_shell to its own loaded copy before the
pre-relaunch persist: fresh timestamps, cleared exit_code, status "pending",
everything else (the stale pid included) untouched. -/
def pending_reset (env : OSEnv) (r0 : ShellRecord) : ShellRecord :=
  { r0 with created_at := env.now, updated_at := env.now, exit_code := none,
            status := "pending" }

theorem restart_shell_eq_some (env : OSEnv) (store : Store) (sid : String)
    (r0 : ShellRecord) (h : load_record store sid = some r0) :
    restart_shell env store sid =
      (if (pending_reset env r0).uses_pty then
        launch_pty env
          (save_record (terminate_shell env store sid true).1 (pending_reset env r0))
          (pending_reset env r0)
      else
        launch env
          (save_record (terminate_shell env store sid true).1 (pending_reset env r0))
          (pending_reset env r0)) := by
  unfold restart_shell restart_pending pending_reset
  rw [h]

theorem storeInv_launch_overwrite (env : OSEnv) (store1 : Store) (a : ShellRecord)
    (hs : storeInv store1) :
    (∀ r, (launch env (save_record store1 a) a).2 = Except.ok r →
      storeInv (launch env (save_record store1 a) a).1) ∧
    (∀ r, (launch_pty env (save_record store1 a) a).2 = Except.ok r →
      storeInv (launch_pty env (save_record store1 a) a).1) := by
  constructor
  · intro r hr
    unfold launch at hr ⊢
    cases hsp : env.spawnResult with
    | none =>
      rw [hsp] at hr
      exact absurd hr (by simp)
    | some pid => exact storeInv_save_overwrite rfl hs rfl
  · intro r hr
    unfold launch_pty at hr ⊢
    cases hsp : env.spawnResult with
    | none =>
      rw [hsp] at hr
      exact absurd hr (by simp)
    | some pid => exact storeInv_save_overwrite rfl hs rfl

theorem storeInv_restart (env : OSEnv) (store : Store) (sid : String)
    (hs : storeInv store) :
    ∀ r, (restart_shell env store sid).2 = Except.ok r →
      storeInv (restart_shell env store sid).1 := by
  intro r hr
  cases hload : load_record store sid with
  | none =>
    rw [restart_shell_eq_none env store sid hload]
    exact hs
  | some r0 =>
    rw [restart_shell_eq_some env store sid r0 hload] at hr ⊢
    have hs1 : storeInv (terminate_shell env store sid true).1 :=
      storeInv_terminate env store sid true hs
    by_cases hpty : (pending_reset env r0).uses_pty = true
    · rw [if_pos hpty] at hr ⊢
      exact (storeInv_launch_overwrite env _ _ hs1).2 r hr
    · rw [if_neg hpty] at hr ⊢
      exact (storeInv_launch_overwrite env _ _ hs1).1 r hr

theorem storeInv_spawn (mgr : FrameworkShellManager) (env : OSEnv) (store : Store)
    (command : List String) (cwd : Option String) (envOv : List (String × String))
    (label : Option String) (autostart : Bool) (hs : storeInv store) :
    storeInv (spawn_shell mgr env store command cwd envOv label autostart).1 ∧
    storeInv (spawn_shell_pty mgr env store command cwd envOv label autostart).1 := by
  have hsw : storeInv (sweep env store) := storeInv_sweep env hs
  constructor
  · simp only [spawn_shell]
    by_cases hcap : mgr.max_shells ≠ 0 ∧
        active_shell_count env (sweep env store) ≥ mgr.max_shells
    · rw [if_pos hcap]
      exact hsw
    · rw [if_neg hcap]
      cases hcr : create_record mgr env command cwd envOv label autostart false with
      | error e => exact hsw
      | ok record => exact storeInv_launch env (sweep env store) record hsw
  · simp only [spawn_shell_pty]
    by_cases hcap : mgr.max_shells ≠ 0 ∧
        active_shell_count env (sweep env store) ≥ mgr.max_shells
    · rw [if_pos hcap]
      exact hsw
    · rw [if_neg hcap]
      cases hcr : create_record mgr env command cwd envOv label autostart true with
      | error e => exact hsw
      | ok record => exact storeInv_launch_pty env (sweep env store) record hsw

/-- C1 amended: if the persisted store satisfies pid-nonnull-iff-running
beforehand, it satisfies it again after every manager operation completes:
spawn in both modes, terminate, restart (when it returns successfully),
remove, sweep, and construction-time adoption.  The claim's further demand
that every intermediate persisted state satisfy the invariant fails at
restart's pre-relaunch persist, see the counterexample. -/
theorem manager_ops_preserve_invariant (mgr : FrameworkShellManager) (env : OSEnv)
    (store : Store) (sid : String) (command : List String) (cwd : Option String)
    (envOv : List (String × String)) (label : Option String) (autostart force : Bool)
    (hs : storeInv store) :
    storeInv (spawn_shell mgr env store command cwd envOv label autostart).1 ∧
    storeInv (spawn_shell_pty mgr env store command cwd envOv label autostart).1 ∧
    storeInv (terminate_shell env store sid force).1 ∧
    (∀ r, (restart_shell env store sid).2 = Except.ok r →
      storeInv (restart_shell env store sid).1) ∧
    storeInv (remove_shell env store sid force).1 ∧
    storeInv (sweep env store) ∧
    storeInv (adopt_orphaned_shells mgr env store) := by
  have hsp := storeInv_spawn mgr env store command cwd envOv label autostart hs
  exact ⟨hsp.1, hsp.2, storeInv_terminate env store sid force hs,
    storeInv_restart env store sid hs, storeInv_remove env store sid force hs,
    storeInv_sweep env hs, storeInv_adopt mgr env hs⟩

/-- Witness for C1 amended at concrete inputs: the invariant holds after a
forced terminate, after a completed restart, after a spawn, and after a
sweep of the one-running-shell store. -/
theorem manager_ops_preserve_invariant_witness :
    storeInv (spawn_shell mgrZero envW [recRunning] ["true"] none [] none false).1 ∧
    storeInv (terminate_shell envW [recRunning] "s0" true).1 ∧
    storeInv (restart_shell envW [recRunning] "s0").1 ∧
    storeInv (sweep envW [recRunning]) := by
  have h := manager_ops_preserve_invariant mgrZero envW [recRunning] "s0" ["true"]
    none [] none false true (by decide)
  exact ⟨h.1, h.2.2.1, h.2.2.2.1 recRestarted (by decide), h.2.2.2.2.2.1⟩

/-- The intermediate record restart persists before relaunching: reset to
"pending" but still carrying the stale pid 7, because restart_shell mutates
its own loaded copy while terminate_shell cleared a different copy. -/
def recPendingStale : ShellRecord :=
  { recRunning with created_at := 100, updated_at := 100, exit_code := none,
                    status := "pending" }

/-- Counterexample to C1 as stated: starting from a store satisfying the
invariant, the state restart_shell persists just before relaunching (the
first component of restart_pending) contains a "pending" record whose pid
is still the old non-null pid, so the invariant is violated at that
intermediate persisted point. -/
theorem restart_intermediate_breaks_invariant :
    storeInv ([recRunning] : Store) ∧
    restart_pending envW [recRunning] "s0" = some ([recPendingStale], recPendingStale) ∧
    recPendingStale.pid = some 7 ∧ recPendingStale.status = "pending" ∧
    ¬ storeInv [recPendingStale] := by
  decide

-- ---------------------------------------------------------------------
-- Claim C7

/-- LOG_TAIL_BYTES, the fixed byte budget read from the end of a log. -/
def LOG_TAIL_BYTES : Nat := 4096

/-- The U+FFFD replacement character substituted by errors="replace". -/
def replacementChar : Char := Char.ofNat 0xFFFD

/-- UTF-8 encoding of one character, by code point range. -/
def utf8EncodeChar (c : Char) : List Nat :=
  if c.toNat < 128 then [c.toNat]
  else if c.toNat < 2048 then [192 + c.toNat / 64, 128 + c.toNat % 64]
  else if c.toNat < 65536 then
    [224 + c.toNat / 4096, 128 + c.toNat / 64 % 64, 128 + c.toNat % 64]
  else
    [240 + c.toNat / 262144, 128 + c.toNat / 4096 % 64, 128 + c.toNat / 64 % 64,
      128 + c.toNat % 64]

/-- Decoder state in the middle of a multi-byte sequence: how many
continuation bytes remain, the code point bits accumulated so far, and the
allowed range for the next byte (the first continuation of a 3- or 4-byte
sequence has narrowed bounds that exclude overlong forms, surrogates and
code points beyond U+10FFFF, exactly as CPython checks them). -/
structure Utf8State where
  remaining : Nat
  acc : Nat
  lo : Nat
  hi : Nat

/-- Action of a byte arriving outside any sequence: ASCII decodes to
itself, C2..F4 opens a sequence with the appropriate continuation bounds,
anything else (stray continuation bytes, the overlong leads C0/C1, F5..FF)
is one replacement character. -/
def startByte (b : Nat) : List Char × Option Utf8State :=
  if b < 128 then ([Char.ofNat b], none)
  else if b < 194 then ([replacementChar], none)
  else if b < 224 then ([], some ⟨1, b - 192, 128, 191⟩)
  else if b = 224 then ([], some ⟨2, 0, 160, 191⟩)
  else if b = 237 then ([], some ⟨2, 13, 128, 159⟩)
  else if b < 240 then ([], some ⟨2, b - 224, 128, 191⟩)
  else if b = 240 then ([], some ⟨3, 0, 144, 191⟩)
  else if b = 244 then ([], some ⟨3, 4, 128, 143⟩)
  else if b < 245 then ([], some ⟨3, b - 240, 128, 191⟩)
  else ([replacementChar], none)

/-- One byte of bytes.decode("utf-8", errors="replace"): inside a sequence
a byte in range extends or completes it; a byte out of range emits one
replacement for the consumed maximal subpart and is re-examined as a fresh
start. -/
def utf8Step (st : Option Utf8State) (b : Nat) : List Char × Option Utf8State :=
  match st with
  | none => startByte b
  | some s =>
    if s.lo ≤ b ∧ b ≤ s.hi then
      if s.remaining = 1 then ([Char.ofNat (s.acc * 64 + (b - 128))], none)
      else ([], some ⟨s.remaining - 1, s.acc * 64 + (b - 128), 128, 191⟩)
    else
      let started := startByte b
      (replacementChar :: started.1, started.2)

/-- Run the decoder; a sequence left open at end of data is one
replacement character (unexpected end of data). -/
def utf8DecodeAux (st : Option Utf8State) : List Nat → List Char
  | [] =>
    match st with
    | none => []
    | some _ => [replacementChar]
  | b :: rest =>
    (utf8Step st b).1 ++ utf8DecodeAux (utf8Step st b).2 rest

/-- bytes.decode("utf-8", errors="replace"). -/
def utf8DecodeReplace (bs : List Nat) : List Char :=
  utf8DecodeAux none bs


theorem char_valid_ranges (c : Char) :
    c.toNat < 55296 ∨ (57343 < c.toNat ∧ c.toNat < 1114112) := by
  rcases c.valid with h | h
  · left
    exact h
  · right
    exact h

theorem utf8DecodeAux_cons (st : Option Utf8State) (b : Nat) (rest : List Nat) :
    utf8DecodeAux st (b :: rest) =
      (utf8Step st b).1 ++ utf8DecodeAux (utf8Step st b).2 rest := rfl

theorem utf8Step_cont (s : Utf8State) (b : Nat) (hlo : s.lo ≤ b) (hhi : b ≤ s.hi)
    (h1 : s.remaining = 1) :
    utf8Step (some s) b = ([Char.ofNat (s.acc * 64 + (b - 128))], none) := by
  unfold utf8Step
  dsimp only
  rw [if_pos ⟨hlo, hhi⟩, if_pos h1]

theorem utf8Step_cont_more (s : Utf8State) (b : Nat) (hlo : s.lo ≤ b) (hhi : b ≤ s.hi)
    (h1 : s.remaining ≠ 1) :
    utf8Step (some s) b =
      ([], some ⟨s.remaining - 1, s.acc * 64 + (b - 128), 128, 191⟩) := by
  unfold utf8Step
  dsimp only
  rw [if_pos ⟨hlo, hhi⟩, if_neg h1]

theorem utf8Decode_run2 (a lo hi b2 : Nat) (bs : List Nat)
    (h2 : lo ≤ b2 ∧ b2 ≤ hi) :
    utf8DecodeAux (some ⟨1, a, lo, hi⟩) (b2 :: bs) =
      Char.ofNat (a * 64 + (b2 - 128)) :: utf8DecodeAux none bs := by
  rw [utf8DecodeAux_cons, utf8Step_cont ⟨1, a, lo, hi⟩ b2 h2.1 h2.2 rfl]
  rfl

theorem utf8Decode_run3 (a lo hi b2 b3 : Nat) (bs : List Nat)
    (h2 : lo ≤ b2 ∧ b2 ≤ hi) (h3 : 128 ≤ b3 ∧ b3 ≤ 191) :
    utf8DecodeAux (some ⟨2, a, lo, hi⟩) (b2 :: b3 :: bs) =
      Char.ofNat ((a * 64 + (b2 - 128)) * 64 + (b3 - 128)) :: utf8DecodeAux none bs := by
  rw [utf8DecodeAux_cons,
    utf8Step_cont_more ⟨2, a, lo, hi⟩ b2 h2.1 h2.2 (show (2 : Nat) ≠ 1 from by decide)]
  show utf8DecodeAux (some ⟨1, a * 64 + (b2 - 128), 128, 191⟩) (b3 :: bs) = _
  rw [utf8Decode_run2 _ _ _ _ _ h3]

theorem utf8Decode_run4 (a lo hi b2 b3 b4 : Nat) (bs : List Nat)
    (h2 : lo ≤ b2 ∧ b2 ≤ hi) (h3 : 128 ≤ b3 ∧ b3 ≤ 191) (h4 : 128 ≤ b4 ∧ b4 ≤ 191) :
    utf8DecodeAux (some ⟨3, a, lo, hi⟩) (b2 :: b3 :: b4 :: bs) =
      Char.ofNat (((a * 64 + (b2 - 128)) * 64 + (b3 - 128)) * 64 + (b4 - 128)) ::
        utf8DecodeAux none bs := by
  rw [utf8DecodeAux_cons,
    utf8Step_cont_more ⟨3, a, lo, hi⟩ b2 h2.1 h2.2 (show (3 : Nat) ≠ 1 from by decide)]
  show utf8DecodeAux (some ⟨2, a * 64 + (b2 - 128), 128, 191⟩) (b3 :: b4 :: bs) = _
  rw [utf8Decode_run3 _ _ _ _ _ _ h3 h4]

theorem utf8Decode_start1 (b1 : Nat) (bs : List Nat) (h : b1 < 128) :
    utf8DecodeAux none (b1 :: bs) = Char.ofNat b1 :: utf8DecodeAux none bs := by
  rw [utf8DecodeAux_cons]
  rw [show utf8Step none b1 = ([Char.ofNat b1], none) from by
    unfold utf8Step startByte
    dsimp only
    rw [if_pos h]]
  rfl

theorem utf8Decode_start2 (b1 b2 : Nat) (bs : List Nat)
    (hb1 : 194 ≤ b1 ∧ b1 < 224) (hb2 : 128 ≤ b2 ∧ b2 ≤ 191) :
    utf8DecodeAux none (b1 :: b2 :: bs) =
      Char.ofNat ((b1 - 192) * 64 + (b2 - 128)) :: utf8DecodeAux none bs := by
  rw [utf8DecodeAux_cons]
  rw [show utf8Step none b1 = ([], some ⟨1, b1 - 192, 128, 191⟩) from by
    unfold utf8Step startByte
    dsimp only
    rw [if_neg (by omega), if_neg (by omega), if_pos (by omega)]]
  show [] ++ utf8DecodeAux (some ⟨1, b1 - 192, 128, 191⟩) (b2 :: bs) = _
  rw [List.nil_append, utf8Decode_run2 _ _ _ _ _ hb2]

theorem utf8Decode_start3 (b1 b2 b3 : Nat) (bs : List Nat)
    (hb1 : 224 ≤ b1 ∧ b1 < 240)
    (hb2 : (b1 = 224 ∧ 160 ≤ b2 ∧ b2 ≤ 191) ∨ (b1 = 237 ∧ 128 ≤ b2 ∧ b2 ≤ 159) ∨
      (b1 ≠ 224 ∧ b1 ≠ 237 ∧ 128 ≤ b2 ∧ b2 ≤ 191))
    (hb3 : 128 ≤ b3 ∧ b3 ≤ 191) :
    utf8DecodeAux none (b1 :: b2 :: b3 :: bs) =
      Char.ofNat (((b1 - 224) * 64 + (b2 - 128)) * 64 + (b3 - 128)) ::
        utf8DecodeAux none bs := by
  rcases hb2 with ⟨hb1eq, hr⟩ | ⟨hb1eq, hr⟩ | ⟨hne1, hne2, hr⟩
  · subst hb1eq
    rw [utf8DecodeAux_cons]
    rw [show utf8Step none 224 = ([], some ⟨2, 0, 160, 191⟩) from by
      unfold utf8Step startByte
      dsimp only
      rw [if_neg (by omega), if_neg (by omega), if_neg (by omega), if_pos rfl]]
    show [] ++ utf8DecodeAux (some ⟨2, 0, 160, 191⟩) (b2 :: b3 :: bs) = _
    rw [List.nil_append, utf8Decode_run3 _ _ _ _ _ _ hr hb3]
  · subst hb1eq
    rw [utf8DecodeAux_cons]
    rw [show utf8Step none 237 = ([], some ⟨2, 13, 128, 159⟩) from by
      unfold utf8Step startByte
      dsimp only
      rw [if_neg (by omega), if_neg (by omega), if_neg (by omega), if_neg (by omega),
        if_pos rfl]]
    show [] ++ utf8DecodeAux (some ⟨2, 13, 128, 159⟩) (b2 :: b3 :: bs) = _
    rw [List.nil_append, utf8Decode_run3 _ _ _ _ _ _ hr hb3]
  · rw [utf8DecodeAux_cons]
    rw [show utf8Step none b1 = ([], some ⟨2, b1 - 224, 128, 191⟩) from by
      unfold utf8Step startByte
      dsimp only
      rw [if_neg (by omega), if_neg (by omega), if_neg (by omega), if_neg hne1,
        if_neg hne2, if_pos (by omega)]]
    show [] ++ utf8DecodeAux (some ⟨2, b1 - 224, 128, 191⟩) (b2 :: b3 :: bs) = _
    rw [List.nil_append, utf8Decode_run3 _ _ _ _ _ _ hr hb3]

theorem utf8Decode_start4 (b1 b2 b3 b4 : Nat) (bs : List Nat)
    (hb1 : 240 ≤ b1 ∧ b1 < 245)
    (hb2 : (b1 = 240 ∧ 144 ≤ b2 ∧ b2 ≤ 191) ∨ (b1 = 244 ∧ 128 ≤ b2 ∧ b2 ≤ 143) ∨
      (b1 ≠ 240 ∧ b1 ≠ 244 ∧ 128 ≤ b2 ∧ b2 ≤ 191))
    (hb3 : 128 ≤ b3 ∧ b3 ≤ 191) (hb4 : 128 ≤ b4 ∧ b4 ≤ 191) :
    utf8DecodeAux none (b1 :: b2 :: b3 :: b4 :: bs) =
      Char.ofNat ((((b1 - 240) * 64 + (b2 - 128)) * 64 + (b3 - 128)) * 64 + (b4 - 128)) ::
        utf8DecodeAux none bs := by
  rcases hb2 with ⟨hb1eq, hr⟩ | ⟨hb1eq, hr⟩ | ⟨hne1, hne2, hr⟩
  · subst hb1eq
    rw [utf8DecodeAux_cons]
    rw [show utf8Step none 240 = ([], some ⟨3, 0, 144, 191⟩) from by
      unfold utf8Step startByte
      dsimp only
      rw [if_neg (by omega), if_neg (by omega), if_neg (by omega), if_neg (by omega),
        if_neg (by omega), if_neg (by omega), if_pos rfl]]
    show [] ++ utf8DecodeAux (some ⟨3, 0, 144, 191⟩) (b2 :: b3 :: b4 :: bs) = _
    rw [List.nil_append, utf8Decode_run4 _ _ _ _ _ _ _ hr hb3 hb4]
  · subst hb1eq
    rw [utf8DecodeAux_cons]
    rw [show utf8Step none 244 = ([], some ⟨3, 4, 128, 143⟩) from by
      unfold utf8Step startByte
      dsimp only
      rw [if_neg (by omega), if_neg (by omega), if_neg (by omega), if_neg (by omega),
        if_neg (by omega), if_neg (by omega), if_neg (by omega), if_pos rfl]]
    show [] ++ utf8DecodeAux (some ⟨3, 4, 128, 143⟩) (b2 :: b3 :: b4 :: bs) = _
    rw [List.nil_append, utf8Decode_run4 _ _ _ _ _ _ _ hr hb3 hb4]
  · rw [utf8DecodeAux_cons]
    rw [show utf8Step none b1 = ([], some ⟨3, b1 - 240, 128, 191⟩) from by
      unfold utf8Step startByte
      dsimp only
      rw [if_neg (by omega), if_neg (by omega), if_neg (by omega), if_neg (by omega),
        if_neg (by omega), if_neg (by omega), if_neg hne1, if_neg hne2,
        if_pos (by omega)]]
    show [] ++ utf8DecodeAux (some ⟨3, b1 - 240, 128, 191⟩) (b2 :: b3 :: b4 :: bs) = _
    rw [List.nil_append, utf8Decode_run4 _ _ _ _ _ _ _ hr hb3 hb4]

set_option maxRecDepth 4000 in
theorem utf8DecodeAux_encodeChar (c : Char) (bs : List Nat) :
    utf8DecodeAux none (utf8EncodeChar c ++ bs) = c :: utf8DecodeAux none bs := by
  have hvalid := char_valid_ranges c
  unfold utf8EncodeChar
  by_cases h1 : c.toNat < 128
  · rw [if_pos h1]
    simp only [List.cons_append, List.nil_append]
    rw [utf8Decode_start1 _ _ h1, Char.ofNat_toNat]
  · rw [if_neg h1]
    by_cases h2 : c.toNat < 2048
    · rw [if_pos h2]
      simp only [List.cons_append, List.nil_append]
      rw [utf8Decode_start2 _ _ _ (by omega) (by omega)]
      congr 1
      conv_rhs => rw [← Char.ofNat_toNat c]
      congr 1
      omega
    · rw [if_neg h2]
      by_cases h3 : c.toNat < 65536
      · rw [if_pos h3]
        simp only [List.cons_append, List.nil_append]
        rw [utf8Decode_start3 _ _ _ _ (by omega) (by omega) (by omega)]
        congr 1
        conv_rhs => rw [← Char.ofNat_toNat c]
        congr 1
        omega
      · rw [if_neg h3]
        simp only [List.cons_append, List.nil_append]
        rw [utf8Decode_start4 _ _ _ _ _ (by omega) (by omega) (by omega) (by omega)]
        congr 1
        conv_rhs => rw [← Char.ofNat_toNat c]
        congr 1
        omega

/-- The UTF-8 bytes of a character sequence. -/
def utf8EncodeList (cs : List Char) : List Nat :=
  List.flatten (List.map utf8EncodeChar cs)

theorem utf8DecodeAux_encodeList (cs : List Char) (bs : List Nat) :
    utf8DecodeAux none (utf8EncodeList cs ++ bs) = cs ++ utf8DecodeAux none bs := by
  induction cs with
  | nil => rfl
  | cons c cs ih =>
    unfold utf8EncodeList
    simp only [List.map_cons, List.flatten_cons, List.append_assoc]
    rw [utf8DecodeAux_encodeChar]
    unfold utf8EncodeList at ih
    rw [ih]
    rfl

theorem utf8DecodeReplace_encodeList_self (cs : List Char) :
    utf8DecodeReplace (utf8EncodeList cs) = cs := by
  unfold utf8DecodeReplace
  have h := utf8DecodeAux_encodeList cs []
  rw [List.append_nil] at h
  rw [h, show utf8DecodeAux none ([] : List Nat) = [] from rfl, List.append_nil]

/-- The line boundaries of str.splitlines: LF, CR, VT, FF, FS, GS, RS, NEL
and the Unicode line and paragraph separators. -/
def isLineBreak (c : Char) : Bool :=
  c.toNat == 10 || c.toNat == 13 || c.toNat == 11 || c.toNat == 12 ||
  c.toNat == 28 || c.toNat == 29 || c.toNat == 30 || c.toNat == 133 ||
  c.toNat == 8232 || c.toNat == 8233

/-- Helper for str.splitlines: walk the text accumulating the current line
in reverse; any boundary character ends a line, a CR opens a window in
which one following LF is absorbed into the same boundary, and at end of
input the remaining partial line is emitted only when nonempty. -/
def splitlinesAux (afterCR : Bool) (acc : List Char) : List Char → List String
  | [] => if acc.isEmpty then [] else [String.mk acc.reverse]
  | c :: rest =>
    if afterCR && c == '\n' then splitlinesAux false acc rest
    else if c == '\r' then String.mk acc.reverse :: splitlinesAux true [] rest
    else if isLineBreak c then String.mk acc.reverse :: splitlinesAux false [] rest
    else splitlinesAux false (c :: acc) rest

/-- str.splitlines on decoded text. -/
def splitlines (cs : List Char) : List String :=
  splitlinesAux false [] cs


theorem splitlinesAux_append (cs : List Char) (h : ∀ c ∈ cs, isLineBreak c = false)
    (acc rest : List Char) :
    splitlinesAux false acc (cs ++ '\n' :: rest) =
      String.mk (acc.reverse ++ cs) :: splitlinesAux false [] rest := by
  induction cs generalizing acc with
  | nil =>
    simp only [List.nil_append, splitlinesAux]
    rw [if_neg (by decide), if_neg (by decide), if_pos (by decide)]
    simp
  | cons c cs ih =>
    have hc := h c (List.mem_cons_self c cs)
    have hcs : ∀ x ∈ cs, isLineBreak x = false := fun x hx => h x (List.mem_cons_of_mem c hx)
    have hcr : (c == '\r') = false := by
      cases hcc : c == '\r' with
      | false => rfl
      | true =>
        have hceq : c = '\r' := eq_of_beq hcc
        rw [hceq] at hc
        exact absurd hc (by decide)
    simp only [List.cons_append, splitlinesAux, Bool.false_and, Bool.false_eq_true,
      if_false, hcr, hc]
    rw [List.append_eq]
    rw [ih hcs (c :: acc)]
    simp


/-- One log's decoded text as written line by line, each line terminated by
one newline. -/
def joinLines (ls : List String) : List Char :=
  List.flatten (List.map (fun s => s.data ++ ['\n']) ls)

theorem splitlines_joinLines (ls : List String)
    (h : ∀ s ∈ ls, ∀ c ∈ s.data, isLineBreak c = false) :
    splitlines (joinLines ls) = ls := by
  induction ls with
  | nil => rfl
  | cons s ls ih =>
    unfold splitlines joinLines
    simp only [List.map_cons, List.flatten_cons, List.append_assoc, List.singleton_append]
    rw [splitlinesAux_append s.data (h s (List.mem_cons_self s ls)) [] _]
    have ihh := ih (fun t ht => h t (List.mem_cons_of_mem s ht))
    unfold splitlines joinLines at ihh
    rw [List.reverse_nil, List.nil_append, ihh]

/-- Decoder test vectors mirroring CPython bytes.decode("utf-8",
errors="replace"): ASCII, two-, three- and four-byte characters roundtrip;
surrogates, overlong forms, out-of-range leads and truncated sequences
become replacement characters per maximal subpart. -/
theorem utf8DecodeReplace_vectors :
    utf8DecodeReplace [104, 105] = ['h', 'i'] ∧
    utf8DecodeReplace [195, 169] = ['é'] ∧
    utf8DecodeReplace [226, 130, 172] = ['€'] ∧
    utf8DecodeReplace [240, 159, 152, 128] = ['😀'] ∧
    utf8DecodeReplace [237, 160, 128] =
      [replacementChar, replacementChar, replacementChar] ∧
    utf8DecodeReplace [192, 175] = [replacementChar, replacementChar] ∧
    utf8DecodeReplace [226, 130] = [replacementChar] ∧
    utf8DecodeReplace [97, 226, 130, 98] = ['a', replacementChar, 'b'] ∧
    utf8DecodeReplace [241, 128, 128, 65] = [replacementChar, 'A'] ∧
    utf8DecodeReplace [194, 194, 169] = [replacementChar, '©'] := by
  decide

/-- splitlines test vectors mirroring CPython str.splitlines: LF, CR, CRLF
(one boundary), lone CR runs, VT and FF, NEL and the Unicode line
separator, and the trailing-newline and empty-string conventions. -/
theorem splitlines_vectors :
    splitlines "ab\ncd".data = ["ab", "cd"] ∧
    splitlines "ab\r\ncd\n".data = ["ab", "cd"] ∧
    splitlines "a\rb".data = ["a", "b"] ∧
    splitlines "a\r\rb".data = ["a", "", "b"] ∧
    splitlines "a\x0bb\x0cc".data = ["a", "b", "c"] ∧
    splitlines "a\n".data = ["a"] ∧
    splitlines "\n".data = [""] ∧
    splitlines "".data = [] ∧
    splitlines ['a', Char.ofNat 8232, 'b'] = ["a", "b"] ∧
    splitlines ['a', Char.ofNat 133, 'b'] = ["a", "b"] := by
  decide

/-- The bytes the source reads: seek to min(size, LOG_TAIL_BYTES) before
file end, then read to the end — the budget applies to raw bytes, before
any decoding. -/
def tail_data (content : List Nat) : List Nat :=
  List.drop (content.length - min content.length LOG_TAIL_BYTES) content

/-- FrameworkShellManager._read_log_tail: nothing for a non-positive line
count or a missing file; otherwise read the final byte-budget window,
decode it as utf-8 with errors replaced, split into lines and keep the
last requested ones. -/
def read_log_tail (existsB : Bool) (content : List Nat) (lines : Nat) : List String :=
  if lines = 0 ∨ existsB = false then []
  else
    List.drop ((splitlines (utf8DecodeReplace (tail_data content))).length - lines)
      (splitlines (utf8DecodeReplace (tail_data content)))

/-- The raw bytes of a log file written as the given lines, each terminated
by one newline: the UTF-8 encoding of the joined text. -/
def joinLinesBytes (ls : List String) : List Nat :=
  utf8EncodeList (joinLines ls)

theorem tail_data_drop (content : List Nat) :
    tail_data (List.drop (content.length - LOG_TAIL_BYTES) content) = tail_data content := by
  unfold tail_data
  rw [List.length_drop, List.drop_drop]
  have h : content.length - LOG_TAIL_BYTES +
      (content.length - (content.length - LOG_TAIL_BYTES) -
        min (content.length - (content.length - LOG_TAIL_BYTES)) LOG_TAIL_BYTES) =
      content.length - min content.length LOG_TAIL_BYTES := by omega
  rw [h]

theorem tail_data_of_le (content : List Nat) (h : content.length ≤ LOG_TAIL_BYTES) :
    tail_data content = content := by
  unfold tail_data
  rw [Nat.min_eq_left h, Nat.sub_self, List.drop_zero]

theorem utf8EncodeList_ascii (cs : List Char) (h : ∀ c ∈ cs, c.toNat < 128) :
    utf8EncodeList cs = List.map Char.toNat cs := by
  induction cs with
  | nil => rfl
  | cons c cs ih =>
    have hc : utf8EncodeChar c = [c.toNat] := by
      unfold utf8EncodeChar
      rw [if_pos (h c (List.mem_cons_self c cs))]
    unfold utf8EncodeList
    simp only [List.map_cons, List.flatten_cons]
    rw [hc, show List.flatten (List.map utf8EncodeChar cs) = List.map Char.toNat cs from
      ih (fun x hx => h x (List.mem_cons_of_mem c hx))]
    rfl

/-- C7 amended: the tail computation depends only on (hence reads at most)
the final LOG_TAIL_BYTES = 4096 bytes of the file (the bounded-read
guarantee, second conjunct, holds for every file), and for a log of K
newline-terminated lines free of line-break characters whose total encoded
size fits the byte budget, tailing N with 0 < N < K yields exactly the
last N lines in order.  For larger files a line straddling the window
boundary comes back truncated, see the counterexample. -/
theorem read_log_tail_exact (ls : List String) (K N : Nat) (hK : ls.length = K)
    (hN : 0 < N) (hNK : N < K)
    (hnl : ∀ s ∈ ls, ∀ c ∈ s.data, isLineBreak c = false)
    (hfit : (joinLinesBytes ls).length ≤ LOG_TAIL_BYTES) :
    read_log_tail true (joinLinesBytes ls) N = List.drop (ls.length - N) ls ∧
    (∀ (e : Bool) (c : List Nat) (n : Nat),
      read_log_tail e c n = read_log_tail e (List.drop (c.length - LOG_TAIL_BYTES) c) n) := by
  constructor
  · unfold read_log_tail
    rw [if_neg (by simp [Nat.pos_iff_ne_zero.mp hN])]
    unfold joinLinesBytes at hfit ⊢
    rw [tail_data_of_le _ hfit, utf8DecodeReplace_encodeList_self,
      splitlines_joinLines ls hnl]
  · intro e c n
    unfold read_log_tail
    rw [tail_data_drop]

/-- Witness for C7 amended at a concrete input: a three-line log of seven
bytes tailed with N = 2 returns its last two lines. -/
theorem read_log_tail_exact_witness :
    read_log_tail true (joinLinesBytes ["ab", "c", "d"]) 2 =
      List.drop (List.length ["ab", "c", "d"] - 2) [("ab" : String), "c", "d"] ∧
    read_log_tail true (joinLinesBytes ["ab", "c", "d"]) 2 = ["c", "d"] := by
  have h := read_log_tail_exact ["ab", "c", "d"] 3 2 (by decide) (by decide) (by decide)
    (by decide) (by decide)
  exact ⟨h.1, by rw [h.1]; decide⟩

/-- A 4095-character line, longer than what fits beside two short lines in
the 4096-byte tail window. -/
def longLine : String :=
  String.mk (List.replicate 4095 'a')

theorem cex_chars :
    joinLines ["x", longLine, "b"] =
      'x' :: '\n' :: 'a' :: 'a' :: (List.replicate 4093 'a' ++ '\n' :: 'b' :: '\n' :: []) := by
  have hrep : List.replicate 4095 'a' = 'a' :: 'a' :: List.replicate 4093 'a' := by
    rw [show (4095 : Nat) = 4093 + 1 + 1 from by norm_num, List.replicate_succ,
      List.replicate_succ]
  unfold joinLines longLine
  simp only [List.map_cons, List.map_nil, List.flatten_cons, List.flatten_nil]
  rw [hrep]
  simp only [List.cons_append, List.nil_append, List.append_nil, List.append_assoc,
    List.singleton_append]

theorem cex_suffix_ascii :
    ∀ c ∈ (List.replicate 4093 'a' ++ '\n' :: 'b' :: '\n' :: []), c.toNat < 128 := by
  intro c hc
  rcases List.mem_append.mp hc with hm | hm
  · rw [List.eq_of_mem_replicate hm]
    decide
  · simp only [List.mem_cons, List.not_mem_nil, or_false] at hm
    rcases hm with rfl | rfl | rfl <;> decide

theorem cex_ascii :
    ∀ c ∈ ('x' :: '\n' :: 'a' :: 'a' ::
        (List.replicate 4093 'a' ++ '\n' :: 'b' :: '\n' :: [])), c.toNat < 128 := by
  intro c hc
  simp only [List.mem_cons] at hc
  rcases hc with rfl | rfl | rfl | rfl | hm
  · decide
  · decide
  · decide
  · decide
  · exact cex_suffix_ascii c hm

theorem cex_bytes :
    joinLinesBytes ["x", longLine, "b"] =
      List.map Char.toNat ('x' :: '\n' :: 'a' :: 'a' ::
        (List.replicate 4093 'a' ++ '\n' :: 'b' :: '\n' :: [])) := by
  unfold joinLinesBytes
  rw [cex_chars, utf8EncodeList_ascii _ cex_ascii]

theorem cex_len : (joinLinesBytes ["x", longLine, "b"]).length = 4100 := by
  rw [cex_bytes]
  simp only [List.length_map, List.length_cons, List.length_append, List.length_replicate]
  norm_num

theorem cex_tail_data :
    tail_data (joinLinesBytes ["x", longLine, "b"]) =
      List.map Char.toNat (List.replicate 4093 'a' ++ '\n' :: 'b' :: '\n' :: []) := by
  unfold tail_data
  rw [cex_len, cex_bytes]
  rw [show (4100 : Nat) - min 4100 LOG_TAIL_BYTES = 4 from by
    unfold LOG_TAIL_BYTES
    norm_num]
  rw [List.map_cons, List.map_cons, List.map_cons, List.map_cons]
  rfl

theorem cex_decode :
    utf8DecodeReplace (List.map Char.toNat
        (List.replicate 4093 'a' ++ '\n' :: 'b' :: '\n' :: [])) =
      List.replicate 4093 'a' ++ '\n' :: 'b' :: '\n' :: [] := by
  rw [← utf8EncodeList_ascii _ cex_suffix_ascii, utf8DecodeReplace_encodeList_self]

theorem cex_splitlines :
    splitlines (List.replicate 4093 'a' ++ '\n' :: 'b' :: '\n' :: []) =
      [String.mk (List.replicate 4093 'a'), "b"] := by
  have hnl : ∀ c ∈ List.replicate 4093 'a', isLineBreak c = false := by
    intro c hm
    rw [List.eq_of_mem_replicate hm]
    decide
  unfold splitlines
  rw [splitlinesAux_append _ hnl [] _]
  rw [List.reverse_nil, List.nil_append]
  rw [show splitlinesAux false [] ('b' :: '\n' :: []) = ["b"] from by decide]

theorem cex_value :
    read_log_tail true (joinLinesBytes ["x", longLine, "b"]) 2 =
      [String.mk (List.replicate 4093 'a'), "b"] := by
  unfold read_log_tail
  rw [if_neg (by simp)]
  rw [cex_tail_data, cex_decode, cex_splitlines]
  rfl

/-- Counterexample to C7 as stated: a log of K = 3 newline-terminated lines
totalling 4100 bytes, tailed with N = 2 < K.  The 4096-byte window cuts
into the 4095-character second line, so the result is not the last two
lines of the file: the long line comes back truncated to 4093 characters. -/
theorem read_log_tail_truncates_counterexample :
    2 < List.length [("x" : String), longLine, "b"] ∧
    read_log_tail true (joinLinesBytes ["x", longLine, "b"]) 2 ≠
      List.drop (List.length [("x" : String), longLine, "b"] - 2)
        [("x" : String), longLine, "b"] := by
  refine ⟨by decide, ?_⟩
  rw [cex_value]
  rw [show List.drop (List.length [("x" : String), longLine, "b"] - 2)
    [("x" : String), longLine, "b"] = [longLine, "b"] from rfl]
  intro hcon
  have hhead : String.mk (List.replicate 4093 'a') = longLine := by
    have h2 := congrArg (fun l => List.headD l "z") hcon
    simpa using h2
  have hdata : List.replicate 4093 'a' = List.replicate 4095 'a' :=
    congrArg String.data hhead
  have hlen := congrArg List.length hdata
  rw [List.length_replicate, List.length_replicate] at hlen
  exact absurd hlen (by norm_num)

-- ---------------------------------------------------------------------
-- Claim C8

/-- Byte-wise (code point) comparison of characters, as Python compares
strings. -/
def charListLe : List Char → List Char → Bool
  | [], _ => true
  | _ :: _, [] => false
  | a :: as, b :: bs =>
    if a.toNat < b.toNat then true
    else if b.toNat < a.toNat then false
    else charListLe as bs

/-- Lexicographic string order used by sorted(...) over dict keys. -/
def strLeB (a b : String) : Bool :=
  charListLe a.data b.data

/-- Insertion into a sorted string list. -/
def insertSortedStr (s : String) : List String → List String
  | [] => [s]
  | x :: xs => if strLeB s x then s :: x :: xs else x :: insertSortedStr s xs

/-- sorted(...) over the key list. -/
def sortStrings (l : List String) : List String :=
  List.foldr insertSortedStr [] l

/-- The dictionary ShellRecord.to_payload builds: every record field except
the env_overrides mapping, whose sorted key names appear as env_keys; the
mapping itself is attached only when include_env is set. -/
structure Payload where
  id : String
  command : List String
  label : Option String
  cwd : String
  pid : Option Nat
  status : String
  created_at : Nat
  updated_at : Nat
  autostart : Bool
  stdout_log : String
  stderr_log : String
  exit_code : Option Int
  env_keys : List String
  run_id : Option String
  launcher_pid : Option Nat
  adopted : Bool
  uses_pty : Bool
  env_overrides : Option (List (String × String))
deriving DecidableEq

/-- ShellRecord.to_payload (include_env defaults to false at every describe
call site). -/
def to_payload (record : ShellRecord) (include_env : Bool) : Payload where
  id := record.id
  command := record.command
  label := record.label
  cwd := record.cwd
  pid := record.pid
  status := record.status
  created_at := record.created_at
  updated_at := record.updated_at
  autostart := record.autostart
  stdout_log := record.stdout_log
  stderr_log := record.stderr_log
  exit_code := record.exit_code
  env_keys := sortStrings (List.map Prod.fst record.env_overrides)
  run_id := record.run_id
  launcher_pid := record.launcher_pid
  adopted := record.adopted
  uses_pty := record.uses_pty
  env_overrides := if include_env then some record.env_overrides else none

/-- The per-shell stats dictionary of FrameworkShellManager._process_stats;
a none field means the key is absent from the dictionary. -/
structure ProcessStats where
  alive : Bool
  uptime : Option Nat
  cpu_percent : Option Int
  memory_rss : Option Nat
  num_threads : Option Nat
deriving DecidableEq

/-- FrameworkShellManager._process_stats.  The three psutil reads happen in
sequence inside one try block, so a failure keeps the values already
assigned and omits the rest; the ps fallback parses all fields before
assigning, so it assigns all three or none. -/
def process_stats (env : OSEnv) (record : ShellRecord) : ProcessStats :=
  let base : ProcessStats :=
    { alive := false, uptime := none, cpu_percent := none, memory_rss := none,
      num_threads := none }
  if pidTruthy record.pid then
    let p := record.pid.getD 0
    if is_pid_alive env record.pid then
      let withUp : ProcessStats :=
        { base with alive := true, uptime := some (env.now - record.created_at) }
      if env.hasPsutil then
        match env.psutilCpu p with
        | none => withUp
        | some c =>
          match env.psutilMem p with
          | none => { withUp with cpu_percent := some c }
          | some m =>
            match env.psutilThreads p with
            | none => { withUp with cpu_percent := some c, memory_rss := some m }
            | some t =>
              { withUp with cpu_percent := some c, memory_rss := some m,
                            num_threads := some t }
      else
        match env.psShell p with
        | none => withUp
        | some cmt =>
          { withUp with cpu_percent := some cmt.1, memory_rss := some (cmt.2.1 * 1024),
                        num_threads := some cmt.2.2 }
    else base
  else base

/-- FrameworkShellManager.describe: the sanitized payload plus live stats
and optional log tails. -/
structure DescribePayload where
  base : Payload
  stats : ProcessStats
  logs : Option (List String × List String)
deriving DecidableEq

/-- Tail of a log file located through the oracle's file system. -/
def read_log_tail_file (env : OSEnv) (path : String) (lines : Nat) : List String :=
  match env.fileContent path with
  | none => read_log_tail false [] lines
  | some content => read_log_tail true content lines

/-- FrameworkShellManager.describe. -/
def describe (env : OSEnv) (record : ShellRecord) (include_logs : Bool)
    (tail_lines : Nat) : DescribePayload where
  base := to_payload record false
  stats := process_stats env record
  logs :=
    if include_logs then
      some (read_log_tail_file env record.stdout_log tail_lines,
            read_log_tail_file env record.stderr_log tail_lines)
    else none

/-- C8: two records equal in every field except the values of env_overrides
(same key set, hence the same sorted key list) produce identical payloads
with include_env at its default and identical describe projections under
any oracle: the values never reach the exposed representation, only the
sorted key names do. -/
theorem env_values_never_exposed (r1 r2 : ShellRecord)
    (hsame : r2 = { r1 with env_overrides := r2.env_overrides })
    (hkeys : sortStrings (List.map Prod.fst r1.env_overrides) =
      sortStrings (List.map Prod.fst r2.env_overrides)) :
    to_payload r1 false = to_payload r2 false ∧
    (∀ (env : OSEnv) (include_logs : Bool) (tail_lines : Nat),
      describe env r1 include_logs tail_lines = describe env r2 include_logs tail_lines) ∧
    (to_payload r1 false).env_overrides = none := by
  have hpay : to_payload r1 false = to_payload r2 false := by
    unfold to_payload
    rw [hkeys, hsame]
    rfl
  refine ⟨hpay, ?_, rfl⟩
  intro env include_logs tail_lines
  have hst : process_stats env r1 = process_stats env r2 := by
    rw [hsame]
    exact rfl
  have hout : r1.stdout_log = r2.stdout_log := by rw [hsame]
  have herr : r1.stderr_log = r2.stderr_log := by rw [hsame]
  unfold describe
  rw [hpay, hst, hout, herr]

/-- The running record with the same shape as recRunning but a different
secret value under the same env key. -/
def recOtherSecret : ShellRecord :=
  { recRunning with env_overrides := [("TOKEN", "hunter2")] }

/-- Witness for C8 at concrete inputs: changing only the TOKEN value leaves
both the payload and the full describe projection bit-identical, and the
payload carries no env_overrides. -/
theorem env_values_never_exposed_witness :
    to_payload recRunning false = to_payload recOtherSecret false ∧
    describe envW recRunning true 5 = describe envW recOtherSecret true 5 ∧
    (to_payload recRunning false).env_overrides = none := by
  have h := env_values_never_exposed recRunning recOtherSecret (by decide) (by decide)
  exact ⟨h.1, h.2.1 envW true 5, h.2.2⟩

-- ---------------------------------------------------------------------
-- Claim C9

/-- The aggregate stats dictionary of
FrameworkShellManager.aggregate_resource_stats.  Unlike the per-shell
stats, cpu_percent and memory_rss are unconditional fields initialized to
zero. -/
structure AggregateStats where
  run_id : Option String
  launcher_pid : Nat
  started_at : Nat
  uptime : Nat
  num_shells : Nat
  num_running : Nat
  num_adopted : Nat
  cpu_percent : Int
  memory_rss : Nat
  pids : List Nat
  has_psutil : Bool
deriving DecidableEq

/-- FrameworkShellManager.aggregate_resource_stats.  The psutil path adds
cpu then rss per running shell, skipping the rest of a shell on the first
failed call; the ps path parses cpu and rss-kilobytes together or skips the
shell.  Failures leave the zero-initialized totals in place. -/
def aggregate_resource_stats (mgr : FrameworkShellManager) (env : OSEnv)
    (store : Store) : AggregateStats :=
  let running := List.filter (fun r => pidTruthy r.pid && is_pid_alive env r.pid) store
  let totals : Int × Nat :=
    if env.hasPsutil then
      List.foldl (fun (acc : Int × Nat) r =>
        match env.psutilCpu (r.pid.getD 0) with
        | none => acc
        | some c =>
          match env.psutilMem (r.pid.getD 0) with
          | none => (acc.1 + c, acc.2)
          | some m => (acc.1 + c, acc.2 + m)) (0, 0) running
    else
      List.foldl (fun (acc : Int × Nat) r =>
        match env.psAgg (r.pid.getD 0) with
        | none => acc
        | some cm => (acc.1 + cm.1, acc.2 + cm.2 * 1024)) (0, 0) running
  { run_id := mgr.run_id
    launcher_pid := mgr.launcher_pid
    started_at := mgr.started_at
    uptime := env.now - mgr.started_at
    num_shells := store.length
    num_running := running.length
    num_adopted := (List.filter (fun r => r.adopted) store).length
    cpu_percent := totals.1
    memory_rss := totals.2
    pids := List.filterMap (fun r => r.pid) running
    has_psutil := env.hasPsutil }

theorem foldl_psAgg_none (env : OSEnv) (l : List ShellRecord) (acc : Int × Nat)
    (h : ∀ q, env.psAgg q = none) :
    List.foldl (fun (acc : Int × Nat) r =>
      match env.psAgg (r.pid.getD 0) with
      | none => acc
      | some cm => (acc.1 + cm.1, acc.2 + cm.2 * 1024)) acc l = acc := by
  induction l generalizing acc with
  | nil => rfl
  | cons a as ih =>
    rw [List.foldl_cons, h (a.pid.getD 0)]
    exact ih acc

/-- C9 amended: in the per-shell stats, values the OS cannot provide are
omitted (the cpu, memory and thread keys stay absent when psutil is missing
and the ps query fails, and likewise when psutil is present but its first
read raises); the aggregate, however, carries unconditional cpu_percent
and memory_rss fields that stay at zero when every per-pid query fails, so
an unobtainable aggregate value is reported as zero rather than omitted,
while obtained via the same psutil-else-ps fallback. -/
theorem stats_unknown_omitted (env : OSEnv) (r : ShellRecord) (p : Nat)
    (hpid : r.pid = some p) (hp : p ≠ 0) :
    ((env.hasPsutil = false → env.psShell p = none →
      (process_stats env r).cpu_percent = none ∧
      (process_stats env r).memory_rss = none ∧
      (process_stats env r).num_threads = none) ∧
     (env.hasPsutil = true → env.psutilCpu p = none →
      (process_stats env r).cpu_percent = none ∧
      (process_stats env r).memory_rss = none ∧
      (process_stats env r).num_threads = none)) ∧
    (∀ (mgr : FrameworkShellManager) (store : Store), env.hasPsutil = false →
      (∀ q, env.psAgg q = none) →
      (aggregate_resource_stats mgr env store).cpu_percent = 0 ∧
      (aggregate_resource_stats mgr env store).memory_rss = 0) := by
  have hpt : pidTruthy r.pid = true := by
    rw [hpid]
    exact bne_iff_ne.mpr hp
  have hgd : r.pid.getD 0 = p := by rw [hpid]; rfl
  refine ⟨⟨?_, ?_⟩, ?_⟩
  · intro hps hfail
    unfold process_stats
    by_cases halive : is_pid_alive env r.pid = true
    · simp [hpt, hgd, hps, hfail, halive]
    · rw [Bool.not_eq_true] at halive
      simp [hpt, halive]
  · intro hps hfirst
    unfold process_stats
    by_cases halive : is_pid_alive env r.pid = true
    · simp [hpt, hgd, hps, hfirst, halive]
    · rw [Bool.not_eq_true] at halive
      simp [hpt, halive]
  · intro mgr store hps hfailall
    unfold aggregate_resource_stats
    rw [hps]
    simp only [Bool.false_eq_true, if_false]
    rw [foldl_psAgg_none env _ (0, 0) hfailall]
    exact ⟨rfl, rfl⟩

/-- A running record on pid 5 for the C9 scenario. -/
def recRunning5 : ShellRecord :=
  { recRunning with id := "s5", pid := some 5 }

/-- Oracle where pid 5 is alive, psutil is absent and every ps query
fails. -/
def envPsFail : OSEnv :=
  { envW with alive := fun q => q == 5 }

/-- Oracle identical except that the ps queries succeed and report zero
usage. -/
def envPsZero : OSEnv :=
  { envPsFail with psShell := fun _ => some (0, 0, 1), psAgg := fun _ => some (0, 0) }

/-- Witness for C9 amended: for the live pid-5 record with psutil absent
and ps failing, the per-shell cpu, memory and thread values are all absent,
and the aggregate totals sit at zero. -/
theorem stats_unknown_omitted_witness :
    (process_stats envPsFail recRunning5).cpu_percent = none ∧
    (process_stats envPsFail recRunning5).memory_rss = none ∧
    (process_stats envPsFail recRunning5).num_threads = none ∧
    (aggregate_resource_stats mgrW envPsFail [recRunning5]).cpu_percent = 0 ∧
    (aggregate_resource_stats mgrW envPsFail [recRunning5]).memory_rss = 0 := by
  have h := stats_unknown_omitted envPsFail recRunning5 5 (by decide) (by decide)
  have h1 := h.1.1 (by decide) (by decide)
  have h2 := h.2 mgrW [recRunning5] (by decide) (fun q => rfl)
  exact ⟨h1.1, h1.2.1, h1.2.2, h2.1, h2.2⟩

/-- Counterexample to C9 as stated: with one live shell whose ps query
fails, the aggregate still contains cpu_percent = 0 and memory_rss = 0 and
is bit-identical to the aggregate of an oracle whose ps query succeeds
reporting zero usage — the aggregate does not omit unobtainable values and
cannot distinguish unknown from zero, though the per-shell stats of the
same two oracles differ. -/
theorem aggregate_reports_zero_counterexample :
    aggregate_resource_stats mgrW envPsFail [recRunning5] =
      aggregate_resource_stats mgrW envPsZero [recRunning5] ∧
    (aggregate_resource_stats mgrW envPsFail [recRunning5]).cpu_percent = 0 ∧
    (aggregate_resource_stats mgrW envPsFail [recRunning5]).memory_rss = 0 ∧
    process_stats envPsFail recRunning5 ≠ process_stats envPsZero recRunning5 := by
  decide
